import Mathlib

/-!
Shallow embedding of `ssc_pdf_to_quiz_json.py` (repository `mymemestroll/sscgl`).

Text is modelled as `List Char`.  The regular-expression based line
classifiers (`QNUM_RE`, `OPTION_RE`, `MARKS_RE`, `ANS_LINE_RE`, `EXPL_HDR_RE`),
the whitespace normaliser `clean`, the answer-key parser `parse_answers` and
the question segmenter `parse_questions` are translated from the source.
`\s` and `\d` are modelled over the ASCII range, `.` does not match a newline,
and `$` accepts only trailing whitespace, following the Python `regex`
semantics on the inputs this tool processes.
-/

namespace SSCGL

/-- Text as a list of characters. -/
abbrev Str := List Char

/-- Python `\s` on the ASCII range: space, tab, newline, CR, VT, FF. -/
def isWS (c : Char) : Bool :=
  c == ' ' || c == '\t' || c == '\n' || c == '\x0d' || c == '\x0b' || c == '\x0c'

/-- Helper for `squeeze`: the flag records whether the previous character was
whitespace (so a run collapses to one space), mirroring `re.sub(r"\s+", " ", t)`. -/
def squeezeAux : Bool → Str → Str
  | _, [] => []
  | prevWS, c :: rest =>
    if isWS c then
      if prevWS then squeezeAux true rest else ' ' :: squeezeAux true rest
    else c :: squeezeAux false rest

/-- `rex.sub(r"\s+", " ", t)`: collapse each maximal whitespace run to one space. -/
def squeeze (t : Str) : Str := squeezeAux false t

/-- Remove trailing whitespace. -/
def dropTrail (t : Str) : Str := (t.reverse.dropWhile isWS).reverse

/-- Python `str.strip()`: remove leading and trailing whitespace. -/
def pstrip (t : Str) : Str := dropTrail (t.dropWhile isWS)

/-- `clean` (source lines 65-66): collapse whitespace runs and strip the ends. -/
def clean (t : Str) : Str := pstrip (squeeze t)

/-- Python `str.upper()` (ASCII). -/
def upperStr (t : Str) : Str := t.map Char.toUpper

/-- Does `p` occur at the very start of `s`? -/
def leadsWith : Str → Str → Bool
  | [], _ => true
  | _ :: _, [] => false
  | p :: ps, c :: cs => p == c && leadsWith ps cs

/-- Python `p in s`: substring occurrence. -/
def occursIn (p : Str) : Str → Bool
  | [] => p.isEmpty
  | c :: rest => leadsWith p (c :: rest) || occursIn p rest

/-- Case-insensitive prefix test (for the `rex.I` patterns). -/
def ciLeads : Str → Str → Bool
  | [], _ => true
  | _ :: _, [] => false
  | p :: ps, c :: cs => Char.toLower p == Char.toLower c && ciLeads ps cs

/-- Python `int` on a digit string. -/
def natOfDigits (ds : Str) : Nat :=
  ds.foldl (fun n c => n * 10 + (c.toNat - '0'.toNat)) 0

/-- `SECTION_HEADERS` (source lines 23-28), in dict insertion order. -/
def SECTION_HEADERS : List (Str × Str) :=
  [("GENERAL INTELLIGENCE AND REASONING".toList, "General Intelligence and Reasoning".toList),
   ("GENERAL AWARENESS".toList, "General Awareness".toList),
   ("QUANTITATIVE APTITUDE".toList, "Quantitative Aptitude".toList),
   ("ENGLISH COMPREHENSION".toList, "English Comprehension".toList)]

/-- `detect_section` (source lines 68-73): first table entry whose key occurs in
the uppercased cleaned line. -/
def detect_section (line : Str) : Option Str :=
  SECTION_HEADERS.findSome? fun kv =>
    if occursIn kv.1 (upperStr (clean line)) then some kv.2 else none

/-- `QNUM_RE.match`, pattern `^(\d{1,3})\.\s*(.*)` (source line 30): a leading
run of one to three digits followed by a period; the captured remainder is the
text after the period with leading whitespace consumed, up to a newline. -/
def qnumMatch (t : Str) : Option (Nat × Str) :=
  let ds := t.takeWhile Char.isDigit
  if ds.length = 0 ∨ 3 < ds.length then none
  else
    match t.drop ds.length with
    | '.' :: rest =>
      some (natOfDigits ds, ((rest.dropWhile isWS).takeWhile (fun c => !(c == '\n'))))
    | _ => none

/-- The option-letter class `[a-dA-D]`. -/
def inAD (c : Char) : Bool :=
  c == 'a' || c == 'b' || c == 'c' || c == 'd' ||
  c == 'A' || c == 'B' || c == 'C' || c == 'D'

/-- The `\s*(.+)` tail of `OPTION_RE`: greedy whitespace, then at least one
non-newline character; if everything left is whitespace the engine backtracks
into the run and captures its last non-newline character. -/
def optBody (rest : Str) : Option Str :=
  let r := rest.dropWhile isWS
  if r.isEmpty then
    match rest.reverse.dropWhile (fun c => c == '\n') with
    | [] => none
    | c :: _ => some [c]
  else some (r.takeWhile (fun c => !(c == '\n')))

/-- `OPTION_RE.match`, pattern `^(?:[a-dA-D][\.\)]|[a-dA-D]\s)\s*(.+)`
(source line 31). -/
def optionMatch (t : Str) : Option Str :=
  match t with
  | c1 :: c2 :: rest =>
    if inAD c1 && (c2 == '.' || c2 == ')') then optBody rest
    else if inAD c1 && isWS c2 then optBody rest
    else none
  | _ => none

/-- `\d+`: consume a nonempty maximal digit run, returning the remainder. -/
def afterDigits (t : Str) : Option Str :=
  let ds := t.takeWhile Char.isDigit
  if ds.isEmpty then none else some (t.drop ds.length)

/-- The `(\.\d+)?\s*\)` tail of `MARKS_RE`: an optional fraction, then
whitespace and a closing parenthesis.  (When the optional group fails after a
period the skip-group alternative also fails, since `)` never equals `.`.) -/
def marksTail (r : Str) : Bool :=
  match r with
  | '.' :: rr =>
    match afterDigits rr with
    | some r2 => ((r2.dropWhile isWS).headD ' ') == ')'
    | none => false
  | _ => ((r.dropWhile isWS).headD ' ') == ')'

/-- `MARKS_RE` matched at the start of `t`, pattern
`\(\s*\+?\d+\s*,\s*-\s*\d+(\.\d+)?\s*\)` (source line 32). -/
def marksAt (t : Str) : Bool :=
  match t with
  | '(' :: r =>
    let r1 := r.dropWhile isWS
    let r2 := match r1 with | '+' :: rr => rr | _ => r1
    (match afterDigits r2 with
     | none => false
     | some r3 =>
       match r3.dropWhile isWS with
       | ',' :: r5 =>
         (match r5.dropWhile isWS with
          | '-' :: r7 =>
            (match afterDigits (r7.dropWhile isWS) with
             | none => false
             | some r9 => marksTail r9)
          | _ => false)
       | _ => false)
  | _ => false

/-- `MARKS_RE.search`: the pattern matches at some position of `t`. -/
def marksSearch : Str → Bool
  | [] => false
  | c :: r => marksAt (c :: r) || marksSearch r

/-- `ANS_LINE_RE.match`, pattern `^\s*(\d{1,3})\.\s*Answer\s*:\s*([A-D])\s*$`
with `rex.I` (source line 33). -/
def ansLineMatch (t : Str) : Option (Nat × Char) :=
  let r := t.dropWhile isWS
  let ds := r.takeWhile Char.isDigit
  if ds.length = 0 ∨ 3 < ds.length then none
  else
    match r.drop ds.length with
    | '.' :: r2 =>
      let r3 := r2.dropWhile isWS
      if ciLeads ("Answer".toList) r3 then
        match (r3.drop 6).dropWhile isWS with
        | ':' :: r6 =>
          (match r6.dropWhile isWS with
           | c :: r8 => if inAD c && r8.all isWS then some (natOfDigits ds, c) else none
           | [] => none)
        | _ => none
      else none
    | _ => none

/-- `EXPL_HDR_RE.match`, pattern `^\s*Explanation\s*:\s*$` with `rex.I`
(source line 34). -/
def explHdrMatch (t : Str) : Bool :=
  let r := t.dropWhile isWS
  if ciLeads ("Explanation".toList) r then
    match (r.drop 11).dropWhile isWS with
    | ':' :: r3 => r3.all isWS
    | _ => false
  else false

/-- `txt.upper().startswith("ANSWERS")` (source lines 108 and 214). -/
def startsWithAnswers (t : Str) : Bool :=
  leadsWith ("ANSWERS".toList) (upperStr t)

/-- Python `" ".join(buf)`. -/
def joinSp : List Str → Str
  | [] => []
  | [x] => x
  | x :: y :: rest => x ++ ' ' :: joinSp (y :: rest)

/-! ## Answer parser (`parse_answers`, source lines 105-145)

The Python answer map is a `dict`; we model it as an association list with at
most one binding per key: `mapSet` replaces an existing binding in place
(Python keyed assignment), `mapLookup` finds the binding. -/

/-- The answer map: question number to (answer letter, explanation text). -/
abbrev AnsMap := List (Nat × (Str × Str))

/-- Python `m[k]` read access (`none` when the key is absent). -/
def mapLookup (k : Nat) : AnsMap → Option (Str × Str)
  | [] => none
  | kv :: m => if kv.1 = k then some kv.2 else mapLookup k m

/-- Python `m[k] = v`: replace an existing binding for `k` in place,
else append a new one. -/
def mapSet (k : Nat) (v : Str × Str) : AnsMap → AnsMap
  | [] => [(k, v)]
  | kv :: m => if kv.1 = k then (k, v) :: m else kv :: mapSet k v m

/-- The local variables of `parse_answers`' while-loop (source lines 114-119). -/
structure AnsState where
  map : AnsMap
  currentQ : Option Nat
  currentAns : Str
  collecting : Bool
  explBuf : List Str
deriving DecidableEq

/-- Initial loop state (`ans_map = {}`, `current_q = None`, `current_ans = ""`,
`collecting = False`, `expl_buf = []`). -/
def ansInit : AnsState := ⟨[], none, [], false, []⟩

/-- The answer-line branch (source lines 124-132): commit any pending entry
(resetting the buffer), then record the new pending number and letter and
clear the collecting flag. -/
def ansCommitLine (st : AnsState) (n : Nat) (c : Char) : AnsState :=
  match st.currentQ with
  | some q =>
    ⟨mapSet q (st.currentAns, clean (joinSp st.explBuf)) st.map,
     some n, [Char.toUpper c], false, []⟩
  | none => ⟨st.map, some n, [Char.toUpper c], false, st.explBuf⟩

/-- One iteration of the while-loop on line `txt` (source lines 121-142),
with the index bookkeeping removed: each iteration consumes exactly one line
(justified by `C9_parse_answers_terminates` below). -/
def ansStep (st : AnsState) (txt : Str) : AnsState :=
  match ansLineMatch txt with
  | some nc => ansCommitLine st nc.1 nc.2
  | none =>
    if explHdrMatch txt then { st with collecting := true }
    else if st.collecting then
      if (pstrip txt).isEmpty then st
      else { st with explBuf := st.explBuf ++ [pstrip txt] }
    else st

/-- The end-of-stream commit (source lines 143-144): commit the pending entry
only when its number is not yet in the map. -/
def ansFinal (st : AnsState) : AnsMap :=
  match st.currentQ with
  | some q =>
    if (mapLookup q st.map).isSome then st.map
    else mapSet q (st.currentAns, clean (joinSp st.explBuf)) st.map
  | none => st.map

/-- The scan for the first `ANSWERS` marker (source lines 106-112): the lines
after the first marker line, or `none` if there is no marker. -/
def answersTail : List Str → Option (List Str)
  | [] => none
  | l :: rest => if startsWithAnswers l then some rest else answersTail rest

/-- `parse_answers` (source lines 105-145). -/
def parse_answers (lines : List Str) : AnsMap :=
  match answersTail lines with
  | none => []
  | some rest => ansFinal (rest.foldl ansStep ansInit)

/-- The while-loop of `parse_answers` with its index `i` and the dead
re-check of `ANS_LINE_RE` inside the collecting case kept verbatim
(source lines 121-142).  `fuel` bounds the number of iterations; the branch
at source lines 138-139 repeats the iteration at the same index (`continue`
without `i += 1`), so if it were reachable the loop would not advance. -/
def ansLoopF : Nat → AnsState → Nat → List Str → Option AnsState
  | 0, _, _, _ => none
  | fuel + 1, st, i, lines =>
    if h : i < lines.length then
      let txt := lines.get ⟨i, h⟩
      match ansLineMatch txt with
      | some nc => ansLoopF fuel (ansCommitLine st nc.1 nc.2) (i + 1) lines
      | none =>
        if explHdrMatch txt then ansLoopF fuel { st with collecting := true } (i + 1) lines
        else if st.collecting then
          if (ansLineMatch txt).isSome then ansLoopF fuel st i lines
          else if (pstrip txt).isEmpty then ansLoopF fuel st (i + 1) lines
          else ansLoopF fuel { st with explBuf := st.explBuf ++ [pstrip txt] } (i + 1) lines
        else ansLoopF fuel st (i + 1) lines
    else some st

/-- `parse_answers` built on the verbatim loop `ansLoopF`, with fuel one more
than the number of lines after the marker; `none` would mean the loop did not
finish within the fuel. -/
def parse_answersF (lines : List Str) : Option AnsMap :=
  match answersTail lines with
  | none => some []
  | some rest => (ansLoopF (rest.length + 1) ansInit 0 rest).map ansFinal

/-! ## Question segmenter (`parse_questions`, source lines 148-218) -/

/-- `OptionObj` (source lines 37-42). -/
structure OptionObj where
  key : Char
  en : Str
  hi : Str
  image : Str
deriving DecidableEq

/-- `QuestionObj` (source lines 44-62). -/
structure QuestionObj where
  id : Str
  qnum : Nat
  subject : Str
  topic : Str
  subtopic : Option Str
  difficulty : Str
  q_en : Str
  q_hi : Str
  q_image : Str
  options : List OptionObj
  answer : Str
  explanation_en : Str
  explanation_hi : Str
  explanation_image : Str
  assets : List Str
  source : Str
  tags : List Str
deriving DecidableEq

/-- Decimal digits of `n`, most significant first; the fuel argument makes the
division recursion structural and `n + 1` fuel always suffices. -/
def natDigitsAux : Nat → Nat → Str
  | 0, _ => []
  | f + 1, n =>
    if n < 10 then [Nat.digitChar n]
    else natDigitsAux f (n / 10) ++ [Nat.digitChar (n % 10)]

/-- Python `str(n)` for a natural number. -/
def natStr (n : Nat) : Str := natDigitsAux (n + 1) n

/-- Python `f"{n:03d}"` for a natural number: pad with leading zeros to
width 3. -/
def pad3 (n : Nat) : Str :=
  List.replicate (3 - (natStr n).length) '0' ++ natStr n

/-- `guess_topic_from_text` (source lines 75-85). -/
def guess_topic_from_text (subject qtext : Str) : Str × Option Str :=
  let ql := qtext.map Char.toLower
  if subject = "Quantitative Aptitude".toList then
    if occursIn "triangle".toList ql then ("Geometry".toList, some "Triangles".toList)
    else if occursIn "average".toList ql then ("Averages".toList, none)
    else if occursIn "ratio".toList ql then ("Ratio & Proportion".toList, none)
    else (subject, none)
  else (subject, none)

/-- `subj.lower().replace(" ", "-")` (source line 187). -/
def slugOf (s : Str) : Str :=
  (s.map Char.toLower).map (fun c => if c = ' ' then '-' else c)

/-- The record appended by `flush` (source lines 160-189), as a function of the
in-progress state and the two run-wide inputs. -/
def buildRecord (source : Str) (amap : AnsMap) (n : Nat) (subject : Option Str)
    (qtext : Str) (opts : List OptionObj) : QuestionObj :=
  let subj := subject.getD ("General".toList)
  let ts := guess_topic_from_text subj qtext
  let ae := (mapLookup n amap).getD ([], [])
  { id := "SSC-CGL-2024-Shift-1-Q".toList ++ pad3 n
    qnum := n
    subject := subj
    topic := ts.1
    subtopic := ts.2
    difficulty := "medium".toList
    q_en := clean qtext
    q_hi := []
    q_image := []
    options := opts
    answer := ae.1
    explanation_en := ae.2
    explanation_hi := []
    explanation_image := []
    assets := []
    source := source
    tags := ["pyq".toList, "bilingual".toList, slugOf subj] }

/-- The segmenter's mutable variables (source lines 154-158) together with the
output list `questions`. -/
structure QState where
  subject : Option Str
  qnum : Option Nat
  qtext : Str
  opts : List OptionObj
  out : List QuestionObj
deriving DecidableEq

/-- Initial segmenter state. -/
def qInit : QState := ⟨none, none, [], [], []⟩

/-- `flush` (source lines 160-189): when a question number is active, append
the finished record; the in-progress fields are reset by the callers, not
here. -/
def flush (source : Str) (amap : AnsMap) (st : QState) : QState :=
  match st.qnum with
  | none => st
  | some n =>
    { st with out := st.out ++ [buildRecord source amap n st.subject st.qtext st.opts] }

/-- One iteration of the segmenter's line loop (source lines 191-216), in the
source's precedence order: section header, question start, then (only with an
active question) option line, scoring annotation, and continuation text.  The
continuation guard re-tests of `detect_section`, `QNUM_RE` and `OPTION_RE`
(source lines 213 and 215) are already decided by the enclosing branches. -/
def qStep (source : Str) (amap : AnsMap) (st : QState) (txt : Str) : QState :=
  match detect_section txt with
  | some sec =>
    let st1 := flush source amap st
    { st1 with subject := some sec, qnum := none, qtext := [], opts := [] }
  | none =>
    match qnumMatch txt with
    | some nm =>
      let st1 := flush source amap st
      { st1 with qnum := some nm.1, qtext := pstrip nm.2, opts := [] }
    | none =>
      match st.qnum with
      | none => st
      | some _ =>
        match optionMatch txt with
        | some body =>
          { st with opts := st.opts ++
              [⟨Char.toUpper ((pstrip txt).headD 'A'), clean body, [], []⟩] }
        | none =>
          if marksSearch txt then st
          else if txt.isEmpty then st
          else if startsWithAnswers txt then st
          else { st with qtext := st.qtext ++ ' ' :: txt }

/-- `parse_questions` (source lines 148-218).  The `source` string is the value
of `extract_source_header` on the first two pages' text (source line 152); the
header extraction reads only the page texts and is passed here as a parameter,
since no field other than `source` depends on it. -/
def parse_questions (lines : List Str) (amap : AnsMap) (source : Str) :
    List QuestionObj :=
  (flush source amap (lines.foldl (qStep source amap) qInit)).out

/-- The fallback source header `"SSC CGL Question Paper"` (source line 92),
used as the `source` value in the concrete evaluations below. -/
def srcFallback : Str := "SSC CGL Question Paper".toList

/-! ## Concrete inputs used by the claim evaluations -/

/-- The nine-line scenario of the specification. -/
def c1lines : List Str :=
  ["GENERAL AWARENESS", "1. What is 2+2?", "A. 3", "B. 4", "(+2,-0.5)",
   "ANSWERS", "1. Answer: B", "Explanation:", "Basic arithmetic."].map String.toList

/-- The record the scenario expects: the flushed question 1 of the body. -/
def c1rec1 : QuestionObj :=
  { id := "SSC-CGL-2024-Shift-1-Q001".toList
    qnum := 1
    subject := "General Awareness".toList
    topic := "General Awareness".toList
    subtopic := none
    difficulty := "medium".toList
    q_en := "What is 2+2?".toList
    q_hi := []
    q_image := []
    options := [⟨'A', "3".toList, [], []⟩, ⟨'B', "4".toList, [], []⟩]
    answer := "B".toList
    explanation_en := "Basic arithmetic.".toList
    explanation_hi := []
    explanation_image := []
    assets := []
    source := srcFallback
    tags := ["pyq".toList, "bilingual".toList, "general-awareness".toList] }

/-- The spurious second record: the answer-key line `"1. Answer: B"` matches
`QNUM_RE`, so the segmenter starts a new question whose text accumulates the
remaining answer-key lines. -/
def c1rec2 : QuestionObj :=
  { c1rec1 with
    q_en := "Answer: B Explanation: Basic arithmetic.".toList
    options := [] }

/-- An answer section that repeats question number 1 with two different
letters and then moves on to number 2, so both entries for number 1 are
committed inside the loop. -/
def c2lines : List Str :=
  ["ANSWERS", "1. Answer: B", "1. Answer: C", "2. Answer: A"].map String.toList

/-- A scoring-annotation line followed by a question-start line whose captured
remainder contains the same annotation text. -/
def c3lines : List Str :=
  ["(+2,-0.5)", "1. x (+2,-0.5) y"].map String.toList

/-- The single record produced from `c3lines`. -/
def c3rec : QuestionObj :=
  { id := "SSC-CGL-2024-Shift-1-Q001".toList
    qnum := 1
    subject := "General".toList
    topic := "General".toList
    subtopic := none
    difficulty := "medium".toList
    q_en := "x (+2,-0.5) y".toList
    q_hi := []
    q_image := []
    options := []
    answer := []
    explanation_en := []
    explanation_hi := []
    explanation_image := []
    assets := []
    source := srcFallback
    tags := ["pyq".toList, "bilingual".toList, "general".toList] }

/-- A question-start line followed by a line that matches both the
question-start pattern and a section header (header detection wins). -/
def c4lines : List Str :=
  ["1. foo", "2. GENERAL AWARENESS"].map String.toList

/-! ## Claim theorems -/

/-- Claim C1.  Running the pipeline on the nine-line scenario does NOT produce
exactly one record: it produces two.  The first record has all the fields the
claim states (subject "General Awareness", text "What is 2+2?", options
(A,"3") and (B,"4") in order, answer "B", explanation "Basic arithmetic."),
but the answer-key line "1. Answer: B" also matches the question-start
pattern `QNUM_RE`, so the segmenter flushes question 1 and then builds a
second, spurious record from the answer-key region — even though the
segmenter explicitly tries to skip the answer region (it ignores lines
starting with "ANSWERS").  The code contradicts the intended one-record
scenario. -/
theorem C1_scenario_two_records :
    parse_questions c1lines (parse_answers c1lines) srcFallback = [c1rec1, c1rec2] := by
  decide

/-- Claim C2, counterexample.  In `c2lines` two committed entries carry
question number 1: the pair ("B","") is committed when the line
"1. Answer: C" is reached, and the pair ("C","") is committed when
"2. Answer: A" is reached.  The in-loop commit `ans_map[current_q] = ...`
overwrites, so the resulting map holds the pair of the SECOND occurrence,
("C",""), not the first — refuting "first occurrence wins". -/
theorem C2_counterexample :
    parse_answers c2lines = [(1, ("C".toList, [])), (2, ("A".toList, []))] ∧
    mapLookup 1 (parse_answers c2lines) ≠ some ("B".toList, []) := by
  decide

/-- Claim C3, counterexample.  The input line "(+2,-0.5)" matches the
scoring-annotation pattern, yet it occurs verbatim as a substring of the
reconstructed question text of the single output record: the question-start
line "1. x (+2,-0.5) y" carries the annotation text inside its captured
remainder, which becomes question text without any `MARKS_RE` check. -/
theorem C3_counterexample :
    "(+2,-0.5)".toList ∈ c3lines ∧
    marksSearch ("(+2,-0.5)".toList) = true ∧
    parse_questions c3lines [] srcFallback = [c3rec] ∧
    occursIn ("(+2,-0.5)".toList) c3rec.q_en = true := by
  decide

/-- Claim C4, counterexample.  The line "2. GENERAL AWARENESS" matches the
question-start pattern `QNUM_RE`, but section-header detection takes
precedence, so it produces no record: `c4lines` has two `QNUM_RE`-matching
lines but the pipeline returns one record. -/
theorem C4_counterexample :
    (parse_questions c4lines [] srcFallback).length = 1 ∧
    c4lines.countP (fun t => (qnumMatch t).isSome) = 2 := by
  decide

/-- Claim C7.  The pipeline is a pure function of the input line sequence in
this embedding — there is no hidden state — so two runs of `parse_answers`
and `parse_questions` on the same lines yield identical answer maps and
identical record lists. -/
theorem C7_deterministic :
    ∀ (lines : List Str) (amap : AnsMap) (source : Str),
      (parse_answers lines, parse_questions lines amap source) =
      (parse_answers lines, parse_questions lines amap source) :=
  fun _ _ _ => rfl

/-- Claim C8.  While no question number is active, a line that is neither a
section header nor a question start changes nothing: the segmenter state —
including the output list — is returned unmodified, so such lines (option
shaped or plain) contribute to no record. -/
theorem C8_idle_frame :
    ∀ (source : Str) (amap : AnsMap) (st : QState) (txt : Str),
      st.qnum = none → detect_section txt = none → qnumMatch txt = none →
      qStep source amap st txt = st := by
  intro source amap st txt h1 h2 h3
  simp only [qStep, h1, h2, h3]

/-- Claim C8, witness: a plain-text line in the initial state. -/
theorem C8_witness :
    qStep srcFallback [] qInit ("hello".toList) = qInit :=
  C8_idle_frame srcFallback [] qInit ("hello".toList) rfl (by decide) (by decide)

/-- Claim C3, amended.  While a question is active, a line that is not a
section header, question start or option line and that matches the
scoring-annotation pattern is discarded entirely — the segmenter state,
including the accumulating question text, is unchanged.  (Annotation text can
still reach `q_en` through a question-start line's captured remainder, as
`C3_counterexample` shows.) -/
theorem C3_amended :
    ∀ (source : Str) (amap : AnsMap) (st : QState) (txt : Str),
      st.qnum.isSome = true → detect_section txt = none → qnumMatch txt = none →
      optionMatch txt = none → marksSearch txt = true →
      qStep source amap st txt = st := by
  intro source amap st txt h1 h2 h3 h4 h5
  rcases hq : st.qnum with _ | n
  · rw [hq] at h1; cases h1
  · simp only [qStep, h2, h3, h4, h5, hq, if_true]

/-- Claim C3, witness for the amended statement: a pure annotation line while
question 1 is active. -/
theorem C3_witness :
    qStep srcFallback [] ⟨none, some 1, [], [], []⟩ ("(+2,-0.5)".toList) =
      ⟨none, some 1, [], [], []⟩ :=
  C3_amended srcFallback [] ⟨none, some 1, [], [], []⟩ ("(+2,-0.5)".toList)
    rfl (by decide) (by decide) (by decide) (by decide)

/-! ## Structural facts about the segmenter

Every record in the output is a `buildRecord` of some run state, and every
option ever appended carries an uppercased option letter.  These two
invariants, threaded through the line fold, settle the per-record claims. -/

theorem dropWhile_append_last (p : Char → Bool) (c : Char) (h : p c = false) :
    ∀ x : Str, ∃ y, List.dropWhile p (x ++ [c]) = y ++ [c] := by
  intro x
  induction x with
  | nil => exact ⟨[], by simp [List.dropWhile, h]⟩
  | cons a x ih =>
    by_cases ha : p a
    · simpa [List.dropWhile, ha] using ih
    · exact ⟨a :: x, by simp [List.dropWhile, ha]⟩

/-- `str.strip()` keeps a non-whitespace head in place. -/
theorem pstrip_head (c : Char) (r : Str) (h : isWS c = false) (d : Char) :
    (pstrip (c :: r)).headD d = c := by
  obtain ⟨y, hy⟩ := dropWhile_append_last isWS c h r.reverse
  simp [pstrip, dropTrail, List.dropWhile, h, hy]

/-- `clean` keeps a non-whitespace head in place. -/
theorem clean_head (c : Char) (r : Str) (h : isWS c = false) (d : Char) :
    (clean (c :: r)).headD d = c := by
  have hsq : squeeze (c :: r) = c :: squeezeAux false r := by
    simp [squeeze, squeezeAux, h]
  rw [clean, hsq]
  exact pstrip_head c _ h d

/-- A line matched by `OPTION_RE` starts with an option letter. -/
theorem optionMatch_shape {txt body : Str} (h : optionMatch txt = some body) :
    ∃ c1 c2 rest, txt = c1 :: c2 :: rest ∧ inAD c1 = true := by
  match txt with
  | [] => simp [optionMatch] at h
  | [c1] => simp [optionMatch] at h
  | c1 :: c2 :: rest =>
    refine ⟨c1, c2, rest, rfl, ?_⟩
    by_cases h1 : inAD c1
    · exact h1
    · simp [optionMatch, h1] at h

theorem inAD_not_ws {c : Char} (h : inAD c = true) : isWS c = false := by
  simp only [inAD, Bool.or_eq_true, beq_iff_eq] at h
  rcases h with ((((((h | h) | h) | h) | h) | h) | h) | h <;> subst h <;> decide

theorem inAD_toUpper_mem {c : Char} (h : inAD c = true) :
    Char.toUpper c ∈ (['A', 'B', 'C', 'D'] : List Char) := by
  simp only [inAD, Bool.or_eq_true, beq_iff_eq] at h
  rcases h with ((((((h | h) | h) | h) | h) | h) | h) | h <;> subst h <;> decide

/-- The option key is inside {A,B,C,D}. -/
def keyOK (o : OptionObj) : Prop := o.key ∈ (['A', 'B', 'C', 'D'] : List Char)

/-- A record produced by some flush of a run with parameters `source`,
`amap`: it is `buildRecord` at some state whose options all have good keys. -/
def recFromRun (source : Str) (amap : AnsMap) (q : QuestionObj) : Prop :=
  ∃ n subject qtext opts, (∀ o ∈ opts, keyOK o) ∧
    q = buildRecord source amap n subject qtext opts

/-- The fold invariant of the segmenter. -/
def segInv (source : Str) (amap : AnsMap) (st : QState) : Prop :=
  (∀ o ∈ st.opts, keyOK o) ∧ (∀ q ∈ st.out, recFromRun source amap q)

theorem flush_none {s : Str} {a : AnsMap} {st : QState} (h : st.qnum = none) :
    flush s a st = st := by
  simp [flush, h]

theorem flush_some {s : Str} {a : AnsMap} {st : QState} {n : Nat}
    (h : st.qnum = some n) :
    flush s a st =
      { st with out := st.out ++ [buildRecord s a n st.subject st.qtext st.opts] } := by
  simp [flush, h]

theorem segInv_flush {s : Str} {a : AnsMap} {st : QState} (h : segInv s a st) :
    segInv s a (flush s a st) := by
  rcases hq : st.qnum with _ | n
  · rw [flush_none hq]; exact h
  · rw [flush_some hq]
    refine ⟨h.1, fun q hmem => ?_⟩
    rcases List.mem_append.mp hmem with hold | hnew
    · exact h.2 q hold
    · rw [List.mem_singleton.mp hnew]
      exact ⟨n, st.subject, st.qtext, st.opts, h.1, rfl⟩

theorem segInv_qStep {s : Str} {a : AnsMap} {st : QState} {txt : Str}
    (h : segInv s a st) : segInv s a (qStep s a st txt) := by
  rcases hsec : detect_section txt with _ | sec
  · rcases hqm : qnumMatch txt with _ | nm
    · rcases hqn : st.qnum with _ | n
      · simpa [qStep, hsec, hqm, hqn] using h
      · rcases hopt : optionMatch txt with _ | body
        · by_cases hm : marksSearch txt
          · simpa [qStep, hsec, hqm, hqn, hopt, hm] using h
          · by_cases he : txt.isEmpty
            · simpa [qStep, hsec, hqm, hqn, hopt, hm, he] using h
            · by_cases hans : startsWithAnswers txt
              · simpa [qStep, hsec, hqm, hqn, hopt, hm, he, hans] using h
              · simpa [qStep, hsec, hqm, hqn, hopt, hm, he, hans] using h
        · obtain ⟨c1, c2, rest, rfl, hAD⟩ := optionMatch_shape hopt
          refine ⟨?_, ?_⟩
          · intro o ho
            simp only [qStep, hsec, hqm, hqn, hopt, List.mem_append,
              List.mem_singleton] at ho
            rcases ho with hold | rfl
            · exact h.1 o hold
            · show Char.toUpper ((pstrip (c1 :: c2 :: rest)).headD 'A') ∈ _
              rw [pstrip_head c1 _ (inAD_not_ws hAD) 'A']
              exact inAD_toUpper_mem hAD
          · intro q hq
            simp only [qStep, hsec, hqm, hqn, hopt] at hq
            exact h.2 q hq
    · constructor
      · intro o ho; simp only [qStep, hsec, hqm] at ho; cases ho
      · intro q hq
        simp only [qStep, hsec, hqm] at hq
        exact (segInv_flush h).2 q hq
  · constructor
    · intro o ho; simp only [qStep, hsec] at ho; cases ho
    · intro q hq
      simp only [qStep, hsec] at hq
      exact (segInv_flush h).2 q hq

theorem segInv_foldl {s : Str} {a : AnsMap} :
    ∀ (L : List Str) (st : QState), segInv s a st →
      segInv s a (L.foldl (qStep s a) st) := by
  intro L
  induction L with
  | nil => intro st h; exact h
  | cons t L ih => intro st h; exact ih _ (segInv_qStep h)

/-- Every output record of `parse_questions` is a flushed `buildRecord`. -/
theorem parse_questions_mem {L : List Str} {a : AnsMap} {s : Str}
    {q : QuestionObj} (h : q ∈ parse_questions L a s) : recFromRun s a q := by
  have hinv : segInv s a qInit :=
    ⟨(by intro o ho; cases ho), (by intro r hr; cases hr)⟩
  exact (segInv_flush (segInv_foldl L qInit hinv)).2 q h

/-- No `ANSWERS` marker line means no answer-key region. -/
theorem answersTail_eq_none :
    ∀ L : List Str, (∀ l ∈ L, startsWithAnswers l = false) → answersTail L = none := by
  intro L
  induction L with
  | nil => intro _; rfl
  | cons l rest ih =>
    intro h
    have h1 : startsWithAnswers l = false := h l (List.mem_cons_self l rest)
    simp only [answersTail, h1, Bool.false_eq_true, if_false]
    exact ih fun x hx => h x (List.mem_cons_of_mem l hx)

/-- Claim C5.  Merge correctness: every output record whose number is in the
answer map carries exactly the stored (letter, explanation) pair, and a record
whose number is absent carries two empty strings; moreover when no line
starts with "ANSWERS" the answer map itself is empty. -/
theorem C5_merge :
    (∀ (lines : List Str) (amap : AnsMap) (source : Str),
       ∀ q ∈ parse_questions lines amap source,
         (∀ a e, mapLookup q.qnum amap = some (a, e) →
            q.answer = a ∧ q.explanation_en = e) ∧
         (mapLookup q.qnum amap = none →
            q.answer = [] ∧ q.explanation_en = [])) ∧
    (∀ lines : List Str, (∀ l ∈ lines, startsWithAnswers l = false) →
       parse_answers lines = []) := by
  constructor
  · intro lines amap source q hq
    obtain ⟨n, subj, qt, opts, -, rfl⟩ := parse_questions_mem hq
    constructor
    · intro a' e' hl
      have hl' : mapLookup n amap = some (a', e') := hl
      constructor
      · show ((mapLookup n amap).getD ([], [])).1 = a'
        rw [hl']; rfl
      · show ((mapLookup n amap).getD ([], [])).2 = e'
        rw [hl']; rfl
    · intro hl
      have hl' : mapLookup n amap = none := hl
      constructor
      · show ((mapLookup n amap).getD ([], [])).1 = []
        rw [hl']; rfl
      · show ((mapLookup n amap).getD ([], [])).2 = []
        rw [hl']; rfl
  · intro lines h
    simp only [parse_answers, answersTail_eq_none lines h]

/-- The single record of the one-line run `["1. hi"]` with an empty answer
map, used to exercise the per-record claims. -/
def wrec : QuestionObj := buildRecord srcFallback [] 1 none ("hi".toList) []

/-- Claim C5, witness: in the run `["1. hi"]` with an empty answer map the
record's answer and explanation are empty. -/
theorem C5_witness : wrec.answer = [] ∧ wrec.explanation_en = [] :=
  (C5_merge.1 ["1. hi".toList] [] srcFallback wrec (by decide)).2 (by decide)

/-- Claim C6.  Every option key of every output record lies in {A,B,C,D}; and
the option branch of the segmenter appends, at the end of the current option
list, an option whose key is the uppercased first character of the cleaned
source line and whose text is the cleaned captured remainder — so options
appear in source encounter order. -/
theorem C6_option_keys :
    (∀ (lines : List Str) (amap : AnsMap) (source : Str),
       ∀ q ∈ parse_questions lines amap source,
         ∀ o ∈ q.options, o.key ∈ (['A', 'B', 'C', 'D'] : List Char)) ∧
    (∀ (source : Str) (amap : AnsMap) (st : QState) (txt body : Str),
       st.qnum.isSome = true → detect_section txt = none → qnumMatch txt = none →
       optionMatch txt = some body →
       qStep source amap st txt =
         { st with opts := st.opts ++
             [⟨Char.toUpper ((clean txt).headD 'A'), clean body, [], []⟩] }) := by
  constructor
  · intro lines amap source q hq o ho
    obtain ⟨n, subj, qt, opts, hk, rfl⟩ := parse_questions_mem hq
    exact hk o ho
  · intro source amap st txt body h1 h2 h3 h4
    rcases hq : st.qnum with _ | n
    · rw [hq] at h1; cases h1
    · obtain ⟨c1, c2, rest, rfl, hAD⟩ := optionMatch_shape h4
      simp only [qStep, h2, h3, hq, h4]
      rw [pstrip_head c1 _ (inAD_not_ws hAD) 'A',
        clean_head c1 _ (inAD_not_ws hAD) 'A']

/-- Claim C6, witness: the key of the option parsed from `"A. x"` is `'A'`,
and stepping the line `"a) y"` with question 1 active appends exactly one
option at the end of the list. -/
theorem C6_witness :
    ('A' ∈ (['A', 'B', 'C', 'D'] : List Char)) ∧
    qStep srcFallback [] ⟨none, some 1, [], [], []⟩ ("a) y".toList) =
      { (⟨none, some 1, [], [], []⟩ : QState) with
        opts := ([] : List OptionObj) ++
          [⟨Char.toUpper ((clean ("a) y".toList)).headD 'A'),
            clean ("y".toList), [], []⟩] } :=
  ⟨C6_option_keys.1 ["1. q".toList, "A. x".toList] [] srcFallback
      (buildRecord srcFallback [] 1 none ("q".toList) [⟨'A', "x".toList, [], []⟩])
      (by decide) ⟨'A', "x".toList, [], []⟩ (by decide),
   C6_option_keys.2 srcFallback [] ⟨none, some 1, [], [], []⟩ ("a) y".toList)
      ("y".toList) rfl (by decide) (by decide) (by decide)⟩

/-- Claim C10.  Every output record's identifier is the constant prefix
"SSC-CGL-2024-Shift-1-Q" followed by the record's question number zero-padded
to three digits — independent of the answer map, the lines, and the extracted
source header (which only ever reaches the `source` field). -/
theorem C10_id :
    ∀ (lines : List Str) (amap : AnsMap) (source : Str),
      ∀ q ∈ parse_questions lines amap source,
        q.id = "SSC-CGL-2024-Shift-1-Q".toList ++ pad3 q.qnum := by
  intro lines amap source q hq
  obtain ⟨n, subj, qt, opts, -, rfl⟩ := parse_questions_mem hq
  rfl

/-- Claim C10, witness. -/
theorem C10_witness :
    wrec.id = "SSC-CGL-2024-Shift-1-Q".toList ++ pad3 wrec.qnum :=
  C10_id ["1. hi".toList] [] srcFallback wrec (by decide)

/-- Claim C2, amended.  The keyed assignment `ans_map[current_q] = ...`
performed by the in-loop commit replaces any existing binding for the same
number — so when two entries with the same number are committed inside the
loop, the later pair wins (`C2_counterexample`) — while the end-of-stream
commit is guarded by `current_q not in ans_map` and never overwrites. -/
theorem C2_amended :
    (∀ (k : Nat) (v : Str × Str) (m : AnsMap), mapLookup k (mapSet k v m) = some v) ∧
    (∀ (st : AnsState) (q : Nat), st.currentQ = some q →
       (mapLookup q st.map).isSome = true → ansFinal st = st.map) := by
  constructor
  · intro k v m
    induction m with
    | nil => simp [mapSet, mapLookup]
    | cons kv m ih =>
      by_cases h : kv.1 = k
      · simp [mapSet, h, mapLookup]
      · simp [mapSet, h, mapLookup, ih]
  · intro st q hq hmem
    simp [ansFinal, hq, hmem]

/-- Claim C2, witness for the amended statement: a fresh in-loop commit is
readable back, and the final commit leaves a map that already holds the
pending number unchanged. -/
theorem C2_witness :
    mapLookup 1 (mapSet 1 ("B".toList, []) []) = some ("B".toList, []) ∧
    ansFinal ⟨[(1, ("C".toList, []))], some 1, "B".toList, false, []⟩ =
      [(1, ("C".toList, []))] :=
  ⟨C2_amended.1 1 ("B".toList, []) [],
   C2_amended.2 ⟨[(1, ("C".toList, []))], some 1, "B".toList, false, []⟩ 1 rfl
     (by decide)⟩

/-! ## Record count (claim C4) -/

/-- A line on which the segmenter starts a new question: it matches `QNUM_RE`
and is not a section header (header detection has precedence). -/
def startPred (t : Str) : Bool := (detect_section t).isNone && (qnumMatch t).isSome

/-- One if a question is in progress, else zero. -/
def qIndicator (st : QState) : Nat := if st.qnum.isSome then 1 else 0

theorem flush_out_length (s : Str) (a : AnsMap) (st : QState) :
    ((flush s a st).out).length = st.out.length + qIndicator st := by
  rcases hq : st.qnum with _ | n
  · rw [flush_none hq]; simp [qIndicator, hq]
  · rw [flush_some hq]; simp [qIndicator, hq]

theorem qStep_count (s : Str) (a : AnsMap) (st : QState) (txt : Str) :
    ((qStep s a st txt).out).length + qIndicator (qStep s a st txt) =
      st.out.length + qIndicator st + (if startPred txt then 1 else 0) := by
  rcases hsec : detect_section txt with _ | sec
  · rcases hqm : qnumMatch txt with _ | nm
    · have hp : startPred txt = false := by simp [startPred, hqm]
      rcases hqn : st.qnum with _ | n
      · simp [qStep, hsec, hqm, hqn, hp]
      · rcases hopt : optionMatch txt with _ | body
        · simp only [qStep, hsec, hqm, hqn, hopt, hp, if_false, Bool.false_eq_true]
          split_ifs <;> simp [qIndicator, hqn]
        · simp [qStep, hsec, hqm, hqn, hopt, hp, qIndicator]
    · have hp : startPred txt = true := by simp [startPred, hsec, hqm]
      simp [qStep, hsec, hqm, hp, qIndicator, flush_out_length]
  · have hp : startPred txt = false := by simp [startPred, hsec]
    simp [qStep, hsec, hp, qIndicator, flush_out_length]

theorem count_foldl (s : Str) (a : AnsMap) :
    ∀ (L : List Str) (st : QState),
      ((flush s a (L.foldl (qStep s a) st)).out).length =
        st.out.length + qIndicator st + L.countP startPred := by
  intro L
  induction L with
  | nil => intro st; simpa using flush_out_length s a st
  | cons t L ih =>
    intro st
    rw [List.foldl_cons, ih (qStep s a st t), List.countP_cons]
    have h2 := qStep_count s a st t
    by_cases hp : startPred t = true
    · simp only [hp, if_true] at h2 ⊢
      omega
    · rw [Bool.not_eq_true] at hp
      simp only [hp, Bool.false_eq_true, if_false] at h2 ⊢
      omega

/-- Claim C4, amended.  The number of output records equals the number of
lines that match the question-start pattern AND are not detected as section
headers: header detection takes precedence over `QNUM_RE`, and every other
question-start line — wherever it occurs, including inside the answer-key
region — starts exactly one record. -/
theorem C4_amended :
    ∀ (lines : List Str) (amap : AnsMap) (source : Str),
      (parse_questions lines amap source).length =
        lines.countP (fun t => (detect_section t).isNone && (qnumMatch t).isSome) := by
  intro lines amap source
  simpa [parse_questions, qInit, qIndicator] using count_foldl source amap lines qInit

/-! ## Termination of the answer loop (claim C9) -/

theorem drop_get_cons {α : Type} :
    ∀ (l : List α) (i : Nat) (h : i < l.length),
      l.drop i = l.get ⟨i, h⟩ :: l.drop (i + 1) := by
  intro l
  induction l with
  | nil => intro i h; cases h
  | cons a l ih =>
    intro i h
    cases i with
    | zero => rfl
    | succ i => exact ih i (by simpa using h)

theorem ansLoopF_eq (lines : List Str) :
    ∀ (fuel i : Nat) (st : AnsState), lines.length - i < fuel →
      ansLoopF fuel st i lines = some ((lines.drop i).foldl ansStep st) := by
  intro fuel
  induction fuel with
  | zero => intro i st h; omega
  | succ fuel ih =>
    intro i st h
    by_cases hi : i < lines.length
    · have hfuel : lines.length - (i + 1) < fuel := by omega
      rw [drop_get_cons lines i hi, List.foldl_cons]
      rcases hm : ansLineMatch (lines.get ⟨i, hi⟩) with _ | nc
      · by_cases he : explHdrMatch (lines.get ⟨i, hi⟩)
        · simp only [ansLoopF, dif_pos hi, hm, he, if_true, ansStep]
          exact ih (i + 1) _ hfuel
        · rw [Bool.not_eq_true] at he
          by_cases hc : st.collecting
          · by_cases hp : (pstrip (lines.get ⟨i, hi⟩)).isEmpty
            · simp only [ansLoopF, dif_pos hi, hm, he, hc, hp, Option.isSome_none,
                Bool.false_eq_true, if_false, if_true, ansStep]
              exact ih (i + 1) _ hfuel
            · rw [Bool.not_eq_true] at hp
              simp only [ansLoopF, dif_pos hi, hm, he, hc, hp, Option.isSome_none,
                Bool.false_eq_true, if_false, if_true, ansStep]
              exact ih (i + 1) _ hfuel
          · rw [Bool.not_eq_true] at hc
            simp only [ansLoopF, dif_pos hi, hm, he, hc, ansStep,
              Bool.false_eq_true, if_false]
            exact ih (i + 1) _ hfuel
      · simp only [ansLoopF, dif_pos hi, hm, ansStep]
        exact ih (i + 1) _ hfuel
    · have hdrop : lines.drop i = [] := List.drop_eq_nil_of_le (by omega)
      simp only [ansLoopF, dif_neg hi, hdrop, List.foldl_nil]

/-- Claim C9.  `parse_answers` terminates on every finite line list: the
verbatim while-loop `ansLoopF` — which keeps the index-skipping re-check of
`ANS_LINE_RE` inside the collecting case (source lines 138-139) — finishes
within one iteration per line, because any line matching the answer-line
pattern is consumed by the first branch of the same iteration, so the skip
branch is never taken.  The loop computes exactly the per-line fold used by
`parse_answers`. -/
theorem C9_parse_answers_terminates :
    ∀ lines : List Str, parse_answersF lines = some (parse_answers lines) := by
  intro lines
  rcases ht : answersTail lines with _ | rest
  · simp [parse_answersF, parse_answers, ht]
  · have h := ansLoopF_eq rest (rest.length + 1) 0 ansInit (by omega)
    rw [List.drop_zero] at h
    simp [parse_answersF, parse_answers, ht, h]

end SSCGL
